import Mathlib

/-!
Verification development for the ShieldBattery lobby websocket API
(`src/server/lib/wsapi/lobbies.js`).

The registry (class `LobbyApi`) is embedded as a pure state-transition
system: every command takes the registry state (the `lobbies`,
`lobbyClients`, `lobbyBannedUsers`, `lobbyCountdowns` and `loadingLobbies`
tables, modelled as association lists over the same keys the source uses)
together with an environment describing the external collaborators
(online user sockets, the gameplay-activity registry), and returns an
`Outcome`: the command result (success or the thrown http error), the
registry state after the command, and the list of published messages.
JavaScript field mutations persist when a later statement throws, so an
`Outcome` carries the state reached at the throw point, not the initial
state.

Helper functions that live outside the embedded file
(`common/lobbies.js`, `server/lib/lobbies/lobby.js`) are modelled from
the specification; each such definition carries a doc comment starting
with `Modelled from the spec:`.
-/

namespace SB

/-- Slot types, mirroring the `type` strings of the slot model
(`open`, `closed`, `human`, `computer`, `observer`, `controlledOpen`,
`controlledClosed`, `umsComputer`). -/
inductive SlotType
  | openSlot
  | closedSlot
  | human
  | computer
  | observer
  | controlledOpen
  | controlledClosed
  | umsComputer
deriving DecidableEq, Repr

/-- One seat in a team: id, occupant type, occupant name, user id, race,
forced-race flag. Ids are modelled as naturals (the source uses random
cuid strings; only freshness/equality matters). -/
structure Slot where
  id : Nat
  type : SlotType
  name : String
  userId : Nat
  race : String
  hasForcedRace : Bool
deriving DecidableEq, Repr

/-- A team: ordered slots plus the observer flag. -/
structure Team where
  slots : List Slot
  isObserver : Bool
deriving DecidableEq, Repr

/-- Game types used by `checkSubTypeValidity` and lobby creation. -/
inductive GameType
  | melee
  | ffa
  | oneVOne
  | topVBottom
  | teamMelee
  | teamFfa
  | ums
deriving DecidableEq, Repr

/-- The lobby aggregate: unique name, game type/sub-type, host slot and
teams (the map snapshot is irrelevant to the verified claims and
omitted). -/
structure Lobby where
  name : String
  gameType : GameType
  gameSubType : Nat
  host : Slot
  teams : List Team
deriving DecidableEq, Repr

/-- Http error taxonomy thrown by the api handlers. `internal` stands for
a JavaScript runtime error (reading a property of `undefined`), which the
source would also surface as a thrown error. -/
inductive ApiError
  | badRequest (msg : String)
  | conflict (msg : String)
  | unauthorized (msg : String)
  | notFound (msg : String)
  | internal
deriving DecidableEq, Repr

/-- A game client connection (the `client` object): socket id, account
name and user id. -/
structure Client where
  id : Nat
  name : String
  userId : Nat
deriving DecidableEq, Repr

/-! ## Association-list helpers

The source keeps all registry tables as `immutable.Map` values; they are
modelled as association lists with `set` replacing the first binding of
the key and `delete` removing every binding of the key. -/

/-- Look up the first binding of a key. -/
def alookup {α β : Type} [DecidableEq α] : List (α × β) → α → Option β
  | [], _ => none
  | (k, v) :: rest, key => if k = key then some v else alookup rest key

/-- Replace the first binding of a key, appending when absent
(`Map.set`). -/
def aset {α β : Type} [DecidableEq α] : List (α × β) → α → β → List (α × β)
  | [], key, v => [(key, v)]
  | (k, v') :: rest, key, v => if k = key then (key, v) :: rest else (k, v') :: aset rest key v

/-- Remove every binding of a key (`Map.delete`). -/
def adelete {α β : Type} [DecidableEq α] (l : List (α × β)) (key : α) : List (α × β) :=
  l.filter fun kv => decide (kv.1 ≠ key)

/-- Update the binding of a key through a function, starting from a
default value when the key is absent (`Map.update(key, default, fn)`). -/
def aupdate {α β : Type} [DecidableEq α] (l : List (α × β)) (key : α) (dflt : β) (f : β → β) :
    List (α × β) :=
  match alookup l key with
  | some v => aset l key (f v)
  | none => aset l key (f dflt)

/-! ## Slot traversal helpers (`common/lobbies.js`) -/

/-- Modelled from the spec: inner worker for `getLobbySlotsWithIndexes`,
pairing each slot of one team with its `(teamIndex, slotIndex)`
coordinates. -/
def slotsIndexedFrom (teamIndex : Nat) : Nat → List Slot → List (Nat × Nat × Slot)
  | _, [] => []
  | slotIndex, s :: rest => (teamIndex, slotIndex, s) :: slotsIndexedFrom teamIndex (slotIndex + 1) rest

/-- Modelled from the spec: worker for `getLobbySlotsWithIndexes`,
walking the teams in order. -/
def teamsIndexedFrom : Nat → List Team → List (Nat × Nat × Slot)
  | _, [] => []
  | teamIndex, t :: rest =>
      slotsIndexedFrom teamIndex 0 t.slots ++ teamsIndexedFrom (teamIndex + 1) rest

/-- Modelled from the spec: `getLobbySlotsWithIndexes` from
`common/lobbies.js` — every slot of the lobby with its
`(teamIndex, slotIndex)` coordinates, teams in order, slots in order. -/
def getLobbySlotsWithIndexes (lobby : Lobby) : List (Nat × Nat × Slot) :=
  teamsIndexedFrom 0 lobby.teams

/-- Modelled from the spec: `getLobbySlots` from `common/lobbies.js` —
every slot of the lobby, teams in order. -/
def getLobbySlots (lobby : Lobby) : List Slot :=
  (lobby.teams.map Team.slots).flatten

/-- Modelled from the spec: `getHumanSlots` from `common/lobbies.js` —
the slots of type `human`, in traversal order. -/
def getHumanSlots (lobby : Lobby) : List Slot :=
  (getLobbySlots lobby).filter fun s => s.type == SlotType.human

/-- Modelled from the spec: `findSlotByName` from `common/lobbies.js` —
first slot whose occupant name equals the given name, with its
coordinates. -/
def findSlotByName (lobby : Lobby) (name : String) : Option (Nat × Nat × Slot) :=
  (getLobbySlotsWithIndexes lobby).find? fun t => t.2.2.name == name

/-- Modelled from the spec: `findSlotById` from `common/lobbies.js` —
first slot with the given id, with its coordinates. -/
def findSlotById (lobby : Lobby) (id : Nat) : Option (Nat × Nat × Slot) :=
  (getLobbySlotsWithIndexes lobby).find? fun t => t.2.2.id == id

/-! ## Game sub-type validation (`checkSubTypeValidity`, lobbies.js 44-54) -/

/-- Direct embedding of `checkSubTypeValidity(gameType, gameSubType,
numSlots)`: top-vs-bottom requires `1 <= gameSubType <= numSlots - 1`,
the team modes require `2 <= gameSubType <= min 4 numSlots`, every other
game type passes. -/
def checkSubTypeValidity (gameType : GameType) (gameSubType : Nat) (numSlots : Nat) :
    Except ApiError Unit :=
  match gameType with
  | .topVBottom =>
      if gameSubType < 1 ∨ gameSubType > numSlots - 1 then
        .error (.badRequest "Invalid game sub-type")
      else .ok ()
  | .teamMelee | .teamFfa =>
      if gameSubType < 2 ∨ gameSubType > min 4 numSlots then
        .error (.badRequest "Invalid game sub-type")
      else .ok ()
  | _ => .ok ()

/-! ## Lobby-list subscription reference counting (lobbies.js 72-110) -/

/-- The `subscribedSockets` table: socket id to reference count (the
`count` field of the `ListSubscription` record). -/
structure SubState where
  subscribedSockets : List (Nat × Nat)
deriving DecidableEq, Repr

/-- Transport-layer effects of subscribe/unsubscribe: the calls into
`nydus.subscribeClient` / `nydus.unsubscribeClient`. -/
inductive SubEffect
  | subscribeClient (socketId : Nat)
  | unsubscribeClient (socketId : Nat)
deriving DecidableEq, Repr

/-- Embedding of the `/subscribe` handler: an already-subscribed socket
only gets its count incremented (no transport call); otherwise the
socket is subscribed with count 1. -/
def subscribe (st : SubState) (socketId : Nat) : SubState × List SubEffect :=
  match alookup st.subscribedSockets socketId with
  | some c =>
      ({ subscribedSockets := aset st.subscribedSockets socketId (c + 1) }, [])
  | none =>
      ({ subscribedSockets := aset st.subscribedSockets socketId 1 },
        [.subscribeClient socketId])

/-- Embedding of the `/unsubscribe` handler: not subscribed throws
`Conflict`; count 1 removes the subscription with a transport
unsubscribe; otherwise only the count is decremented. -/
def unsubscribe (st : SubState) (socketId : Nat) :
    Except ApiError (SubState × List SubEffect) :=
  match alookup st.subscribedSockets socketId with
  | none => .error (.conflict "not subscribed")
  | some c =>
      if c = 1 then
        .ok ({ subscribedSockets := adelete st.subscribedSockets socketId },
          [.unsubscribeClient socketId])
      else
        .ok ({ subscribedSockets := aset st.subscribedSockets socketId (c - 1) }, [])

/-! ## Chat (lobbies.js 258-280) -/

/-- Chat text trimming from `sendChat`: text longer than 500 characters
is cut to its first 500 characters (`text.slice(0, 500)`). -/
def chatText (text : String) : String :=
  if text.length > 500 then (text.toList.take 500).asString else text

/-- The chat message published by `sendChat`: type `chat`, sender name,
possibly trimmed text. -/
structure ChatMsg where
  lobbyName : String
  fromName : String
  text : String
deriving DecidableEq, Repr

/-- Embedding of the `/sendChat` handler body given the resolved client
and lobby: publishes one chat message to the lobby with the sender name
and the trimmed text. -/
def sendChat (lobby : Lobby) (client : Client) (text : String) : ChatMsg :=
  { lobbyName := lobby.name, fromName := client.name, text := chatText text }

end SB

namespace SB

/-- Looking up a key right after setting it yields the new value. -/
theorem alookup_aset_self {α β : Type} [DecidableEq α] (l : List (α × β)) (k : α) (v : β) :
    alookup (aset l k v) k = some v := by
  induction l with
  | nil => simp [aset, alookup]
  | cons kv rest ih =>
      by_cases h : kv.1 = k
      · simp [aset, alookup, h]
      · simpa [aset, alookup, h] using ih

/-- Looking up a key right after deleting it yields nothing. -/
theorem alookup_adelete_self {α β : Type} [DecidableEq α] (l : List (α × β)) (k : α) :
    alookup (adelete l k) k = none := by
  induction l with
  | nil => simp [adelete, alookup]
  | cons kv rest ih =>
      by_cases h : kv.1 = k
      · simpa [adelete, alookup, h] using ih
      · simpa [adelete, alookup, h] using ih

/-- Claim C8 — `checkSubTypeValidity` rejects with `BadRequest` exactly
when the sub-type is out of range for the game type (top-vs-bottom:
`1..numSlots-1`; team melee / team FFA: `2..min 4 numSlots`; all other
game types always pass), and in particular `teamMelee` with 8 slots and
sub-type 0 is rejected. -/
theorem c8_subtype_validity (gameType : GameType) (gameSubType numSlots : Nat) :
    (checkSubTypeValidity gameType gameSubType numSlots =
        Except.error (ApiError.badRequest "Invalid game sub-type") ↔
      (gameType = .topVBottom ∧ (gameSubType < 1 ∨ gameSubType > numSlots - 1)) ∨
      ((gameType = .teamMelee ∨ gameType = .teamFfa) ∧
        (gameSubType < 2 ∨ gameSubType > min 4 numSlots))) ∧
    checkSubTypeValidity GameType.teamMelee 0 8 =
      Except.error (ApiError.badRequest "Invalid game sub-type") := by
  refine ⟨?_, rfl⟩
  cases gameType <;> simp [checkSubTypeValidity] <;> omega

end SB

namespace SB

/-- Claim C9 — lobby-list subscription reference counting: unsubscribing
while not subscribed throws `Conflict`; subscribing while already
subscribed only increments the per-socket count (no transport
subscribe); after two subscribes from a fresh state a single unsubscribe
only decrements the count to 1 and keeps the subscription, and only a
second unsubscribe removes it (with the transport unsubscribe). -/
theorem c9_subscription_refcount (st : SubState) (sid : Nat) :
    (alookup st.subscribedSockets sid = none →
      unsubscribe st sid = .error (.conflict "not subscribed")) ∧
    (∀ c, alookup st.subscribedSockets sid = some c →
      subscribe st sid = ({ subscribedSockets := aset st.subscribedSockets sid (c + 1) }, [])) ∧
    (alookup st.subscribedSockets sid = none →
      (subscribe st sid).2 = [SubEffect.subscribeClient sid] ∧
      (subscribe (subscribe st sid).1 sid).2 = [] ∧
      alookup (subscribe (subscribe st sid).1 sid).1.subscribedSockets sid = some 2 ∧
      unsubscribe (subscribe (subscribe st sid).1 sid).1 sid =
        .ok ({ subscribedSockets :=
                 aset (subscribe (subscribe st sid).1 sid).1.subscribedSockets sid 1 }, []) ∧
      alookup (aset (subscribe (subscribe st sid).1 sid).1.subscribedSockets sid 1) sid =
        some 1 ∧
      unsubscribe
          { subscribedSockets :=
              aset (subscribe (subscribe st sid).1 sid).1.subscribedSockets sid 1 } sid =
        .ok ({ subscribedSockets :=
                 adelete
                   (aset (subscribe (subscribe st sid).1 sid).1.subscribedSockets sid 1) sid },
          [SubEffect.unsubscribeClient sid])) := by
  refine ⟨fun h => by simp [unsubscribe, h], fun c h => by simp [subscribe, h], fun h => ?_⟩
  have h1 : subscribe st sid =
      ({ subscribedSockets := aset st.subscribedSockets sid 1 },
        [SubEffect.subscribeClient sid]) := by
    simp [subscribe, h]
  have l1 : alookup (aset st.subscribedSockets sid 1) sid = some 1 :=
    alookup_aset_self _ _ _
  have h2 : subscribe (subscribe st sid).1 sid =
      ({ subscribedSockets := aset (aset st.subscribedSockets sid 1) sid 2 }, []) := by
    rw [h1]
    simp [subscribe, l1]
  have l2 : alookup (aset (aset st.subscribedSockets sid 1) sid 2) sid = some 2 :=
    alookup_aset_self _ _ _
  refine ⟨by rw [h1], by rw [h2], by rw [h2]; exact l2, ?_, ?_, ?_⟩
  · rw [h2]
    simp [unsubscribe, l2]
  · rw [h2]
    exact alookup_aset_self _ _ _
  · rw [h2]
    simp [unsubscribe, alookup_aset_self]

/-- Claim C9 witness: the reference-count behaviour evaluated on a fresh
registry and socket 7. -/
theorem c9_subscription_refcount_witness :
    unsubscribe { subscribedSockets := [] } 7 = .error (.conflict "not subscribed") ∧
    alookup (subscribe (subscribe { subscribedSockets := [] } 7).1 7).1.subscribedSockets 7 =
      some 2 :=
  ⟨(c9_subscription_refcount { subscribedSockets := [] } 7).1 rfl,
    ((c9_subscription_refcount { subscribedSockets := [] } 7).2.2 rfl).2.2.1⟩

/-- A long text used to exercise chat truncation: 501 copies of `a`. -/
def longChatText : String :=
  (List.replicate 501 'a').asString

/-- A tiny concrete lobby used by witnesses that only need a name. -/
def witnessSlot : Slot :=
  { id := 1, type := .human, name := "alice", userId := 11, race := "r", hasForcedRace := false }

/-- A one-team, one-human concrete lobby used by witnesses. -/
def witnessLobby : Lobby :=
  { name := "L", gameType := .melee, gameSubType := 0, host := witnessSlot,
    teams := [{ slots := [witnessSlot], isObserver := false }] }

/-- A concrete client used by witnesses. -/
def witnessClient : Client :=
  { id := 10, name := "alice", userId := 11 }

/-- Claim C10 — the chat message published by `sendChat` carries the
sender's name and a text of at most 500 characters: text longer than 500
characters is cut to its first 500 characters, shorter text is passed
through unchanged. -/
theorem c10_chat_truncation (lobby : Lobby) (client : Client) (text : String) :
    (sendChat lobby client text).fromName = client.name ∧
    (sendChat lobby client text).lobbyName = lobby.name ∧
    (sendChat lobby client text).text.length ≤ 500 ∧
    (text.length ≤ 500 → (sendChat lobby client text).text = text) ∧
    (text.length > 500 →
      (sendChat lobby client text).text = (text.toList.take 500).asString) := by
  refine ⟨rfl, rfl, ?_, ?_, ?_⟩
  · by_cases h : text.length > 500
    · simp only [sendChat, chatText, if_pos h, List.length_asString, List.length_take]
      omega
    · simp only [sendChat, chatText, if_neg h]
      omega
  · intro h
    have h' : ¬text.length > 500 := by omega
    simp [sendChat, chatText, h']
  · intro h
    simp [sendChat, chatText, h]

/-- Claim C10 witness: a 2-character text is broadcast unchanged and a
501-character text is cut to its first 500 characters. -/
theorem c10_chat_truncation_witness :
    (sendChat witnessLobby witnessClient "hi").text = "hi" ∧
    (sendChat witnessLobby witnessClient longChatText).text =
      (longChatText.toList.take 500).asString :=
  ⟨(c10_chat_truncation witnessLobby witnessClient "hi").2.2.2.1 (by decide),
    (c10_chat_truncation witnessLobby witnessClient longChatText).2.2.2.2
      (by
        have h : longChatText.length = 501 := by
          rw [show longChatText = (List.replicate 501 'a').asString from rfl,
            List.length_asString, List.length_replicate]
        omega)⟩

end SB

namespace SB

/-! ## Diff engine (`_publishLobbyDiff`, lobbies.js 900-1019) -/

/-- The diff event shapes pushed by `_publishLobbyDiff`, in source order
of their emitting sections. -/
inductive DiffEvent
  | hostChange (host : Slot)
  | kick (player : Slot)
  | ban (player : Slot)
  | leave (player : Slot)
  | slotDeleted (teamIndex : Nat) (slotIndex : Option Nat)
  | slotCreate (teamIndex slotIndex : Nat) (slot : Slot)
  | slotChange (teamIndex slotIndex : Nat) (player : Slot)
  | raceChange (teamIndex slotIndex : Nat) (newRace : String)
deriving DecidableEq, Repr

/-- The slot ids of a lobby in traversal order (`getLobbySlots(...).map(
slot => slot.id)`); the source wraps them in an `immutable.Set`, which
coincides with the plain list under the unique-slot-id invariant. -/
def slotIds (lobby : Lobby) : List Nat :=
  (getLobbySlots lobby).map Slot.id

/-- The id intersection `same = oldSlots.intersect(newSlots)`. -/
def sameIds (oldLobby newLobby : Lobby) : List Nat :=
  (slotIds oldLobby).filter fun id => decide (id ∈ slotIds newLobby)

/-- The departure ids `left = oldHumans.subtract(same)`. -/
def leftIds (oldLobby newLobby : Lobby) : List Nat :=
  ((getHumanSlots oldLobby).map Slot.id).filter fun id =>
    decide (id ∉ sameIds oldLobby newLobby)

/-- The creation ids `created = newSlots.subtract(same)`. -/
def createdIds (oldLobby newLobby : Lobby) : List Nat :=
  (slotIds newLobby).filter fun id => decide (id ∉ sameIds oldLobby newLobby)

/-- Departure classification from the `left` loop: `kick` when the
occupant name matches the kicked hint, `ban` when it matches the banned
hint, `leave` otherwise. The hints are the removed user's name (passed
by `_removeClientFromLobby`). -/
def classifyDeparture (kickedUser bannedUser : Option String) (player : Slot) : DiffEvent :=
  if kickedUser = some player.name then .kick player
  else if bannedUser = some player.name then .ban player
  else .leave player

/-- Host-change section of the diff (lobbies.js 904-909). -/
def hostChangeEvents (oldLobby newLobby : Lobby) : List DiffEvent :=
  if newLobby.host.id ≠ oldLobby.host.id then [.hostChange newLobby.host] else []

/-- Departure section of the diff (lobbies.js 931-954): each id of
`left` is resolved through the old indexed slots and classified. -/
def leftEvents (oldLobby newLobby : Lobby) (kickedUser bannedUser : Option String) :
    List DiffEvent :=
  (leftIds oldLobby newLobby).filterMap fun id =>
    (findSlotById oldLobby id).map fun t => classifyDeparture kickedUser bannedUser t.2.2

/-- Slot-deletion section of the diff (lobbies.js 961-971): one event
per team whose slot count shrank, at the externally supplied index. The
teams are read pairwise; the source assumes both snapshots have the same
team count. -/
def deletedEvents (oldLobby newLobby : Lobby) (deletedSlotIndex : Option Nat) :
    List DiffEvent :=
  (List.zip oldLobby.teams newLobby.teams).enum.filterMap fun p =>
    if p.2.2.slots.length < p.2.1.slots.length then
      some (.slotDeleted p.1 deletedSlotIndex)
    else none

/-- Slot-creation section of the diff (lobbies.js 973-984). -/
def createdEvents (oldLobby newLobby : Lobby) : List DiffEvent :=
  (createdIds oldLobby newLobby).filterMap fun id =>
    (findSlotById newLobby id).map fun t => .slotCreate t.1 t.2.1 t.2.2

/-- Same-id section of the diff (lobbies.js 986-1009): a `slotChange`
when the id stayed but the coordinates moved, a `raceChange` when the
coordinates stayed but the race differs. -/
def sameEvents (oldLobby newLobby : Lobby) : List DiffEvent :=
  (sameIds oldLobby newLobby).filterMap fun id =>
    match findSlotById oldLobby id, findSlotById newLobby id with
    | some (oti, osi, os), some (nti, nsi, ns) =>
        if oti = nti ∧ osi = nsi then
          if os = ns then none
          else if os.race ≠ ns.race then some (.raceChange nti nsi ns.race)
          else none
        else some (.slotChange nti nsi ns)
    | _, _ => none

/-- The full ordered diff list of `_publishLobbyDiff`: host change,
departures, deletions, creations, same-id changes. -/
def diffEvents (oldLobby newLobby : Lobby) (kickedUser bannedUser : Option String)
    (deletedSlotIndex : Option Nat) : List DiffEvent :=
  hostChangeEvents oldLobby newLobby
    ++ leftEvents oldLobby newLobby kickedUser bannedUser
    ++ deletedEvents oldLobby newLobby deletedSlotIndex
    ++ createdEvents oldLobby newLobby
    ++ sameEvents oldLobby newLobby

/-- Position of an event kind in the fixed emission order of the diff
engine. -/
def eventRank : DiffEvent → Nat
  | .hostChange _ => 0
  | .kick _ => 1
  | .ban _ => 1
  | .leave _ => 1
  | .slotDeleted _ _ => 2
  | .slotCreate _ _ _ => 3
  | .slotChange _ _ _ => 4
  | .raceChange _ _ _ => 4

/-- Departure events are the kick/ban/leave kinds. -/
def isDeparture : DiffEvent → Bool
  | .kick _ => true
  | .ban _ => true
  | .leave _ => true
  | _ => false

theorem eventRank_hostChangeEvents {oldLobby newLobby : Lobby} {e : DiffEvent}
    (h : e ∈ hostChangeEvents oldLobby newLobby) : eventRank e = 0 := by
  unfold hostChangeEvents at h
  split at h <;> simp_all [eventRank]

theorem eventRank_leftEvents {oldLobby newLobby : Lobby} {k b : Option String} {e : DiffEvent}
    (h : e ∈ leftEvents oldLobby newLobby k b) : eventRank e = 1 := by
  unfold leftEvents at h
  obtain ⟨id, _, hmap⟩ := List.mem_filterMap.mp h
  obtain ⟨t, _, ht⟩ := Option.map_eq_some'.mp hmap
  subst ht
  unfold classifyDeparture
  split <;> [skip; split] <;> simp [eventRank]

theorem eventRank_deletedEvents {oldLobby newLobby : Lobby} {dsi : Option Nat} {e : DiffEvent}
    (h : e ∈ deletedEvents oldLobby newLobby dsi) : eventRank e = 2 := by
  unfold deletedEvents at h
  obtain ⟨p, _, hp⟩ := List.mem_filterMap.mp h
  split at hp
  · cases hp
    simp [eventRank]
  · cases hp

theorem eventRank_createdEvents {oldLobby newLobby : Lobby} {e : DiffEvent}
    (h : e ∈ createdEvents oldLobby newLobby) : eventRank e = 3 := by
  unfold createdEvents at h
  obtain ⟨id, _, hmap⟩ := List.mem_filterMap.mp h
  obtain ⟨t, _, ht⟩ := Option.map_eq_some'.mp hmap
  subst ht
  simp [eventRank]

theorem eventRank_sameEvents {oldLobby newLobby : Lobby} {e : DiffEvent}
    (h : e ∈ sameEvents oldLobby newLobby) : eventRank e = 4 := by
  unfold sameEvents at h
  obtain ⟨id, _, hp⟩ := List.mem_filterMap.mp h
  split at hp
  · split at hp
    · split at hp
      · cases hp
      · split at hp
        · cases hp
          simp [eventRank]
        · cases hp
    · cases hp
      simp [eventRank]
  · cases hp

/-- Appending a list of higher-ranked events to a rank-sorted list keeps
it rank-sorted. -/
theorem pairwise_rank_append {l₁ l₂ : List DiffEvent} (k : Nat)
    (h₁ : ∀ e ∈ l₁, eventRank e ≤ k) (h₂ : ∀ e ∈ l₂, k ≤ eventRank e)
    (p₁ : l₁.Pairwise fun a b => eventRank a ≤ eventRank b)
    (p₂ : l₂.Pairwise fun a b => eventRank a ≤ eventRank b) :
    (l₁ ++ l₂).Pairwise fun a b => eventRank a ≤ eventRank b := by
  refine List.pairwise_append.mpr ⟨p₁, p₂, ?_⟩
  intro a ha b hb
  exact le_trans (h₁ a ha) (h₂ b hb)

/-- A list whose events all share one rank is rank-sorted. -/
theorem pairwise_rank_const {l : List DiffEvent} (k : Nat) (h : ∀ e ∈ l, eventRank e = k) :
    l.Pairwise fun a b => eventRank a ≤ eventRank b := by
  refine List.pairwise_of_forall_mem_list ?_
  intro a ha b hb
  rw [h a ha, h b hb]

end SB

namespace SB

/-- Claim C3 — the diff engine emits event kinds in the fixed order:
host change, then departures (kick/ban/leave), then slot deletions, then
slot creations, then same-id changes (slotChange/raceChange); in every
produced diff list the kind rank is monotone, so no kind ever appears
out of this order. -/
theorem c3_diff_event_order (oldLobby newLobby : Lobby) (kickedUser bannedUser : Option String)
    (deletedSlotIndex : Option Nat) :
    (diffEvents oldLobby newLobby kickedUser bannedUser deletedSlotIndex).Pairwise
      fun a b => eventRank a ≤ eventRank b := by
  unfold diffEvents
  simp only [List.append_assoc]
  refine pairwise_rank_append 0 (fun e he => (eventRank_hostChangeEvents he).le)
    (fun e _ => Nat.zero_le _)
    (pairwise_rank_const 0 fun e he => eventRank_hostChangeEvents he) ?_
  refine pairwise_rank_append 1 (fun e he => (eventRank_leftEvents he).le) ?_
    (pairwise_rank_const 1 fun e he => eventRank_leftEvents he) ?_
  · intro e he
    rcases List.mem_append.mp he with h | h
    · have := eventRank_deletedEvents h
      omega
    rcases List.mem_append.mp h with h2 | h2
    · have := eventRank_createdEvents h2
      omega
    · have := eventRank_sameEvents h2
      omega
  refine pairwise_rank_append 2 (fun e he => (eventRank_deletedEvents he).le) ?_
    (pairwise_rank_const 2 fun e he => eventRank_deletedEvents he) ?_
  · intro e he
    rcases List.mem_append.mp he with h | h
    · have := eventRank_createdEvents h
      omega
    · have := eventRank_sameEvents h
      omega
  refine pairwise_rank_append 3 (fun e he => (eventRank_createdEvents he).le)
    (fun e he => by have := eventRank_sameEvents he; omega)
    (pairwise_rank_const 3 fun e he => eventRank_createdEvents he)
    (pairwise_rank_const 4 fun e he => eventRank_sameEvents he)

end SB

namespace SB

theorem map_slot_slotsIndexedFrom (teamIndex j : Nat) (ss : List Slot) :
    (slotsIndexedFrom teamIndex j ss).map (fun t => t.2.2) = ss := by
  induction ss generalizing j with
  | nil => simp [slotsIndexedFrom]
  | cons s rest ih => simp [slotsIndexedFrom, ih]

theorem map_slot_teamsIndexedFrom (i : Nat) (ts : List Team) :
    (teamsIndexedFrom i ts).map (fun t => t.2.2) = (ts.map Team.slots).flatten := by
  induction ts generalizing i with
  | nil => simp [teamsIndexedFrom]
  | cons t rest ih => simp [teamsIndexedFrom, map_slot_slotsIndexedFrom, ih]

/-- The indexed traversal carries exactly the plain slot traversal. -/
theorem map_slot_indexes (lobby : Lobby) :
    (getLobbySlotsWithIndexes lobby).map (fun t => t.2.2) = getLobbySlots lobby :=
  map_slot_teamsIndexedFrom 0 lobby.teams

/-- With unique slot ids, searching the indexed slots for the id of a
member returns exactly that member. -/
theorem find?_id_of_nodup (l : List (Nat × Nat × Slot))
    (hnd : (l.map fun t => t.2.2.id).Nodup) (t0 : Nat × Nat × Slot) (ht0 : t0 ∈ l) :
    (l.find? fun x => x.2.2.id == t0.2.2.id) = some t0 := by
  induction l with
  | nil => cases ht0
  | cons h rest ih =>
      rw [List.map_cons, List.nodup_cons] at hnd
      rcases List.mem_cons.mp ht0 with rfl | hmem
      · exact List.find?_cons_of_pos _ (by simp)
      · have hne : h.2.2.id ≠ t0.2.2.id := by
          intro heq
          exact hnd.1 (heq ▸ List.mem_map_of_mem _ hmem)
        rw [List.find?_cons_of_neg _ (by simp [hne])]
        exact ih hnd.2 hmem

/-- With unique slot ids, `findSlotById` at the id of a slot present in
the lobby finds that very slot (at some coordinates). -/
theorem findSlotById_self {lobby : Lobby} (hnd : (slotIds lobby).Nodup) {s : Slot}
    (hs : s ∈ getLobbySlots lobby) :
    ∃ ti si, findSlotById lobby s.id = some (ti, si, s) := by
  have hmap := map_slot_indexes lobby
  have hmem : s ∈ (getLobbySlotsWithIndexes lobby).map fun t => t.2.2 := by
    rw [hmap]
    exact hs
  obtain ⟨t0, ht0, hts⟩ := List.mem_map.mp hmem
  have hnd' : ((getLobbySlotsWithIndexes lobby).map fun t => t.2.2.id).Nodup := by
    have hcomp : ((getLobbySlotsWithIndexes lobby).map fun t => t.2.2.id)
        = ((getLobbySlotsWithIndexes lobby).map fun t => t.2.2).map Slot.id := by
      rw [List.map_map]
      rfl
    rw [hcomp, hmap]
    exact hnd
  have hfind := find?_id_of_nodup _ hnd' t0 ht0
  refine ⟨t0.1, t0.2.1, ?_⟩
  unfold findSlotById
  rw [show s.id = t0.2.2.id from (hts ▸ rfl)]
  rw [hfind]
  rw [show t0 = (t0.1, t0.2.1, t0.2.2) from rfl, hts]

theorem isDeparture_eq_false_of_rank {e : DiffEvent} (h : eventRank e ≠ 1) :
    isDeparture e = false := by
  cases e <;> simp_all [isDeparture, eventRank]

theorem isDeparture_eq_true_of_rank {e : DiffEvent} (h : eventRank e = 1) :
    isDeparture e = true := by
  cases e <;> simp_all [isDeparture, eventRank]

/-- Filtering the full diff list for departures leaves exactly the
departure section. -/
theorem filter_departure_diffEvents (oldLobby newLobby : Lobby)
    (kickedUser bannedUser : Option String) (deletedSlotIndex : Option Nat) :
    (diffEvents oldLobby newLobby kickedUser bannedUser deletedSlotIndex).filter isDeparture =
      leftEvents oldLobby newLobby kickedUser bannedUser := by
  unfold diffEvents
  simp only [List.filter_append]
  rw [List.filter_eq_nil_iff.mpr fun e he => by
      simp [isDeparture_eq_false_of_rank (by rw [eventRank_hostChangeEvents he]; omega)]]
  rw [List.filter_eq_self.mpr fun e he => by
      simp [isDeparture_eq_true_of_rank (eventRank_leftEvents he)]]
  rw [List.filter_eq_nil_iff.mpr fun e he => by
      simp [isDeparture_eq_false_of_rank (by rw [eventRank_deletedEvents he]; omega)]]
  rw [List.filter_eq_nil_iff.mpr fun e he => by
      simp [isDeparture_eq_false_of_rank (by rw [eventRank_createdEvents he]; omega)]]
  rw [List.filter_eq_nil_iff.mpr fun e he => by
      simp [isDeparture_eq_false_of_rank (by rw [eventRank_sameEvents he]; omega)]]
  simp

/-- Pushing a filter over ids through a `filterMap` that resolves each
id back to its slot. -/
theorem filterMap_ids_eq_map {l : List Slot} {q : Nat → Bool} {p : Slot → Bool}
    {g : Nat → Option DiffEvent} {f : Slot → DiffEvent}
    (hq : ∀ s ∈ l, q s.id = p s) (hg : ∀ s ∈ l, g s.id = some (f s)) :
    ((l.map Slot.id).filter q).filterMap g = (l.filter p).map f := by
  induction l with
  | nil => simp
  | cons s rest ih =>
      have hq' := hq s (List.mem_cons_self s rest)
      have hg' := hg s (List.mem_cons_self s rest)
      have ih' := ih (fun x hx => hq x (List.mem_cons_of_mem s hx))
        (fun x hx => hg x (List.mem_cons_of_mem s hx))
      simp only [List.map_cons, List.filter_cons, hq']
      by_cases hp : p s = true
      · simp [hp, List.filterMap_cons, hg', ih']
      · simp [hp, ih']

end SB

namespace SB

/-- Claim C4 — under the unique-slot-id invariant, the departure events
of a diff are exactly the human slots of the old snapshot whose id is
absent from the new snapshot, each classified as `kick` when it matches
the kicked hint, `ban` when it matches the banned hint, and `leave`
otherwise (the hints carry the removed user's name). -/
theorem c4_departure_classification (oldLobby newLobby : Lobby)
    (kickedUser bannedUser : Option String) (deletedSlotIndex : Option Nat)
    (hnd : (slotIds oldLobby).Nodup) :
    (diffEvents oldLobby newLobby kickedUser bannedUser deletedSlotIndex).filter isDeparture =
      ((getHumanSlots oldLobby).filter fun s => decide (s.id ∉ slotIds newLobby)).map
        fun s =>
          if kickedUser = some s.name then DiffEvent.kick s
          else if bannedUser = some s.name then DiffEvent.ban s
          else DiffEvent.leave s := by
  rw [filter_departure_diffEvents]
  unfold leftEvents leftIds
  refine filterMap_ids_eq_map ?_ ?_
  · intro s hs
    have hmem : s ∈ getLobbySlots oldLobby := List.mem_of_mem_filter hs
    have hid : s.id ∈ slotIds oldLobby := List.mem_map_of_mem Slot.id hmem
    have hiff : s.id ∈ sameIds oldLobby newLobby ↔ s.id ∈ slotIds newLobby := by
      unfold sameIds
      simp [List.mem_filter, hid]
    simp [decide_eq_decide, hiff]
  · intro s hs
    have hmem : s ∈ getLobbySlots oldLobby := List.mem_of_mem_filter hs
    obtain ⟨ti, si, hf⟩ := findSlotById_self hnd hmem
    simp [hf, classifyDeparture]

/-- A second human slot (bob) used in concrete diff scenarios. -/
def bobSlot : Slot :=
  { id := 2, type := .human, name := "bob", userId := 22, race := "r", hasForcedRace := false }

/-- A fresh open slot left behind by a departure in concrete diff
scenarios. -/
def freshOpenSlot : Slot :=
  { id := 3, type := .openSlot, name := "", userId := 0, race := "r", hasForcedRace := false }

/-- Old snapshot for the diff witness: alice (host) and bob. -/
def diffOldLobby : Lobby :=
  { name := "W", gameType := .melee, gameSubType := 0, host := witnessSlot,
    teams := [{ slots := [witnessSlot, bobSlot], isObserver := false }] }

/-- New snapshot for the diff witness: bob replaced by a fresh open
slot. -/
def diffNewLobby : Lobby :=
  { name := "W", gameType := .melee, gameSubType := 0, host := witnessSlot,
    teams := [{ slots := [witnessSlot, freshOpenSlot], isObserver := false }] }

/-- Claim C4 witness: the departure characterisation evaluated on a
concrete kick of bob out of a two-slot lobby. -/
theorem c4_departure_classification_witness :
    (diffEvents diffOldLobby diffNewLobby (some "bob") none none).filter isDeparture =
      ((getHumanSlots diffOldLobby).filter fun s => decide (s.id ∉ slotIds diffNewLobby)).map
        fun s =>
          if some "bob" = some s.name then DiffEvent.kick s
          else if (none : Option String) = some s.name then DiffEvent.ban s
          else DiffEvent.leave s :=
  c4_departure_classification diffOldLobby diffNewLobby (some "bob") none none (by decide)

end SB

namespace SB

/-! ## Registry state, environment and outcomes (class `LobbyApi`) -/

/-- The mutable fields of `LobbyApi` relevant to the verified claims:
lobby table, client-to-lobby associations (keyed by client id), per-lobby
ban lists, names with an active countdown record, and the loading table
(name to game id). -/
structure RegistryState where
  lobbies : List (String × Lobby)
  lobbyClients : List (Nat × String)
  lobbyBannedUsers : List (String × List String)
  lobbyCountdowns : List String
  loadingLobbies : List (String × Nat)
deriving DecidableEq, Repr

/-- External collaborators: the user-socket registry (`getByName`
succeeds for online users) and the gameplay-activity registry
(`getClientForUser`). -/
structure Env where
  onlineUsers : List String
  activeClients : List (String × Client)
deriving DecidableEq, Repr

/-- Messages published over the transport, tagged with their target
path's lobby name (and user name for per-user paths). -/
inductive Msg
  | diffMsg (lobbyName : String) (events : List DiffEvent)
  | leaveConfirm (lobbyName : String) (player : Slot)
  | listAdd (lobbyName : String)
  | listUpdate (lobbyName : String)
  | listDelete (lobbyName : String)
  | userStatusCleared (lobbyName userName : String)
  | cancelLoadingUser (lobbyName userName : String)
  | cancelLoading (lobbyName : String)
  | cancelCountdown (lobbyName : String)
  | startCountdownMsg (lobbyName : String)
  | allowStart (lobbyName : String) (gameId : Option Nat)
  | gameStarted (lobbyName : String)
deriving DecidableEq, Repr

/-- The observable result of one command handler: the returned/thrown
value, the registry state at the end of the call (mutations persist when
a later statement throws), and the published messages in order. -/
structure Outcome where
  result : Except ApiError Unit
  state : RegistryState
  pubs : List Msg
deriving Repr

/-- Shorthand for a handler failing before any mutation or publish. -/
def errOutcome (st : RegistryState) (e : ApiError) : Outcome :=
  { result := .error e, state := st, pubs := [] }

/-- Embedding of `getUserByName` (lobbies.js 834-838): `BadRequest` when
the user has no socket collection. -/
def getUserByName (env : Env) (name : String) : Except ApiError Unit :=
  if name ∈ env.onlineUsers then .ok () else .error (.badRequest "user not online")

/-- Embedding of `getActiveClientForUser` (lobbies.js 840-844). -/
def getActiveClientForUser (env : Env) (name : String) : Except ApiError Client :=
  match alookup env.activeClients name with
  | some client => .ok client
  | none => .error (.badRequest "no active client for user")

/-- Embedding of `getLobbyForClient` (lobbies.js 852-857). A client
association pointing at a vanished lobby makes the source return
`undefined` and crash at the first property access; that case is
`internal`. -/
def getLobbyForClient (st : RegistryState) (client : Client) : Except ApiError Lobby :=
  match alookup st.lobbyClients client.id with
  | none => .error (.badRequest "must be in a lobby")
  | some name =>
      match alookup st.lobbies name with
      | some lobby => .ok lobby
      | none => .error .internal

/-- Embedding of `ensureIsLobbyHost` (lobbies.js 859-863). -/
def ensureIsLobbyHost (lobby : Lobby) (player : Slot) : Except ApiError Unit :=
  if player.id ≠ lobby.host.id then .error (.unauthorized "must be a lobby host") else .ok ()

/-- Embedding of `ensureLobbyNotTransient` (lobbies.js 874-881):
`Conflict` while the lobby is counting down or loading. -/
def ensureLobbyNotTransient (st : RegistryState) (lobby : Lobby) : Except ApiError Unit :=
  if lobby.name ∈ st.lobbyCountdowns then .error (.conflict "lobby is counting down")
  else if (alookup st.loadingLobbies lobby.name).isSome then
    .error (.conflict "lobby has already started")
  else .ok ()

/-- A lobby name is in a transient state when it has a countdown record
or a loading entry. -/
def isTransient (st : RegistryState) (name : String) : Prop :=
  name ∈ st.lobbyCountdowns ∨ (alookup st.loadingLobbies name).isSome = true

instance (st : RegistryState) (name : String) : Decidable (isTransient st name) := by
  unfold isTransient
  infer_instance

/-! ## The removePlayer transition function (spec-modelled) -/

/-- A fresh slot id: one above every id in the lobby (the source draws a
random cuid; only freshness matters). -/
def freshSlotId (lobby : Lobby) : Nat :=
  (getLobbySlots lobby).foldl (fun m s => max m s.id) 0 + 1

/-- Modelled from the spec: `createOpenSlot` from server/lib/lobbies/slot
— a fresh `open` placeholder slot. -/
def createOpenSlotWithId (id : Nat) : Slot :=
  { id := id, type := .openSlot, name := "", userId := 0, race := "r", hasForcedRace := false }

/-- Replace the slot at one index of a team's slot list. -/
def replaceSlotInSlots : List Slot → Nat → Slot → List Slot
  | [], _, _ => []
  | _ :: rest, 0, s' => s' :: rest
  | s :: rest, n + 1, s' => s :: replaceSlotInSlots rest n s'

/-- Replace the slot at `(teamIndex, slotIndex)` of a team list. -/
def replaceSlotInTeams : List Team → Nat → Nat → Slot → List Team
  | [], _, _, _ => []
  | t :: rest, 0, si, s' => { t with slots := replaceSlotInSlots t.slots si s' } :: rest
  | t :: rest, ti + 1, si, s' => t :: replaceSlotInTeams rest ti si s'

/-- Modelled from the spec: `removePlayer` from
server/lib/lobbies/lobby.js — the removed occupant's position becomes a
fresh `open` slot (new id); returns the "lobby now empty" sentinel
(`none`) when no human slots remain anywhere; when the removed slot was
the host and humans remain, the host becomes the next human slot in
team-then-slot order. -/
def removePlayer (lobby : Lobby) (teamIndex slotIndex : Nat) (player : Slot) : Option Lobby :=
  let fresh := createOpenSlotWithId (freshSlotId lobby)
  let lobby' := { lobby with teams := replaceSlotInTeams lobby.teams teamIndex slotIndex fresh }
  match getHumanSlots lobby' with
  | [] => none
  | h :: _ =>
      if player.id = lobby.host.id then some { lobby' with host := h } else some lobby'

/-! ## Countdown rollback helpers (lobbies.js 759-801) -/

/-- Embedding of `_maybeCancelCountdown` (lobbies.js 788-801): no-op
without a countdown record; otherwise the record is removed and
`cancelCountdown` plus a list `add` republish are published. -/
def maybeCancelCountdown (st : RegistryState) (lobby : Lobby) : RegistryState × List Msg :=
  if lobby.name ∈ st.lobbyCountdowns then
    ({ st with lobbyCountdowns := st.lobbyCountdowns.filter fun n => decide (n ≠ lobby.name) },
      [Msg.cancelCountdown lobby.name, Msg.listAdd lobby.name])
  else (st, [])

/-- Embedding of `_onLoadingCanceled` (lobbies.js 759-765): the loading
entry is removed and `cancelLoading` plus a list `add` republish are
published. -/
def onLoadingCanceled (st : RegistryState) (lobby : Lobby) : RegistryState × List Msg :=
  ({ st with loadingLobbies := adelete st.loadingLobbies lobby.name },
    [Msg.cancelLoading lobby.name, Msg.listAdd lobby.name])

/-! ## Diff publication and client removal (lobbies.js 600-645, 900-1019) -/

/-- The messages published by `_publishLobbyDiff`: nothing when the two
snapshots are identical; otherwise the diff broadcast (skipped when the
event list is empty) followed by a list `update`. -/
def publishLobbyDiffMsgs (oldLobby newLobby : Lobby) (kickedUser bannedUser : Option String)
    (deletedSlotIndex : Option Nat) : List Msg :=
  if oldLobby = newLobby then []
  else
    let events := diffEvents oldLobby newLobby kickedUser bannedUser deletedSlotIndex
    (if events.isEmpty then [] else [Msg.diffMsg newLobby.name events])
      ++ [Msg.listUpdate newLobby.name]

/-- Removal kinds of `_removeClientFromLobby` (REMOVAL_TYPE_NORMAL /
KICK / BAN). -/
inductive RemovalType
  | normal
  | kick
  | ban
deriving DecidableEq, Repr

/-- Embedding of `_removeClientFromLobby` (lobbies.js 600-645),
statement by statement: resolve the user's sockets and active client
(both can throw `BadRequest` before any mutation), find the user's slot,
run `removePlayer`; the empty sentinel deletes the lobby and its ban
list and publishes the leave confirmation plus a list `delete`, the
normal result commits the updated lobby and publishes its diff; then the
client association is dropped, the per-user status is cleared, a pending
countdown is cancelled, and a leaving user of a loading lobby is told to
cancel loading. -/
def removeClientFromLobby (env : Env) (st : RegistryState) (lobby : Lobby) (userName : String)
    (removalType : RemovalType) : Outcome :=
  match getUserByName env userName with
  | .error e => errOutcome st e
  | .ok _ =>
  match getActiveClientForUser env userName with
  | .error e => errOutcome st e
  | .ok client =>
  match findSlotByName lobby userName with
  | none => errOutcome st .internal
  | some (teamIndex, slotIndex, player) =>
    let removed := removePlayer lobby teamIndex slotIndex player
    let step1 :=
      match removed with
      | none =>
          ({ st with
              lobbies := adelete st.lobbies lobby.name,
              lobbyBannedUsers := adelete st.lobbyBannedUsers lobby.name },
            [Msg.leaveConfirm lobby.name player, Msg.listDelete lobby.name])
      | some updated =>
          ({ st with lobbies := aset st.lobbies lobby.name updated },
            publishLobbyDiffMsgs lobby updated
              (if removalType = RemovalType.kick then some userName else none)
              (if removalType = RemovalType.ban then some userName else none) none)
    let st2 := { step1.1 with lobbyClients := adelete step1.1.lobbyClients client.id }
    let afterCancel := maybeCancelCountdown st2 lobby
    let loadingPubs :=
      if (alookup afterCancel.1.loadingLobbies lobby.name).isSome then
        [Msg.cancelLoadingUser lobby.name userName]
      else []
    { result := .ok (),
      state := afterCancel.1,
      pubs := step1.2 ++ [Msg.userStatusCleared lobby.name userName]
        ++ afterCancel.2 ++ loadingPubs }

/-! ## The leave / kickPlayer / banPlayer handlers (lobbies.js 482-598) -/

/-- Embedding of the `/leave` handler (lobbies.js 592-598). -/
def leave (env : Env) (st : RegistryState) (userName : String) : Outcome :=
  match getActiveClientForUser env userName with
  | .error e => errOutcome st e
  | .ok client =>
  match getLobbyForClient st client with
  | .error e => errOutcome st e
  | .ok lobby => removeClientFromLobby env st lobby userName .normal

/-- Embedding of `_kickPlayerFromLobby` (lobbies.js 507-515): a computer
occupant is removed directly with a diff publish (the branch assumes a
human remains, as every lobby has a human host); a human or observer
occupant goes through `_removeClientFromLobby` with the kick removal
type; any other slot type falls through with no effect. -/
def kickPlayerFromLobby (env : Env) (st : RegistryState) (lobby : Lobby)
    (teamIndex slotIndex : Nat) (playerToKick : Slot) : Outcome :=
  if playerToKick.type = .computer then
    match removePlayer lobby teamIndex slotIndex playerToKick with
    | some updated =>
        { result := .ok (),
          state := { st with lobbies := aset st.lobbies lobby.name updated },
          pubs := publishLobbyDiffMsgs lobby updated none none none }
    | none => errOutcome st .internal
  else if playerToKick.type = .human ∨ playerToKick.type = .observer then
    removeClientFromLobby env st lobby playerToKick.name .kick
  else { result := .ok (), state := st, pubs := [] }

/-- Embedding of the `/kickPlayer` handler (lobbies.js 482-505): resolve
lobby and caller slot, require host, require not transient, resolve the
target slot, require an occupied type, then `_kickPlayerFromLobby`. -/
def kickPlayer (env : Env) (st : RegistryState) (client : Client) (slotId : Nat) : Outcome :=
  match getLobbyForClient st client with
  | .error e => errOutcome st e
  | .ok lobby =>
  match findSlotByName lobby client.name with
  | none => errOutcome st .internal
  | some (_, _, player) =>
  match ensureIsLobbyHost lobby player with
  | .error e => errOutcome st e
  | .ok _ =>
  match ensureLobbyNotTransient st lobby with
  | .error e => errOutcome st e
  | .ok _ =>
  match findSlotById lobby slotId with
  | none => errOutcome st (.badRequest "invalid slot id")
  | some (teamIndex, slotIndex, playerToKick) =>
    if playerToKick.type ≠ .human ∧ playerToKick.type ≠ .computer ∧
        playerToKick.type ≠ .observer then
      errOutcome st (.badRequest "invalid slot type")
    else kickPlayerFromLobby env st lobby teamIndex slotIndex playerToKick

/-- Embedding of the `/banPlayer` handler (lobbies.js 517-539): resolve
lobby and caller slot, require host, require not transient, resolve the
target slot, require a human occupant, then append the target's name to
the lobby's ban list (committed immediately) and remove the target with
the ban removal type. -/
def banPlayer (env : Env) (st : RegistryState) (client : Client) (slotId : Nat) : Outcome :=
  match getLobbyForClient st client with
  | .error e => errOutcome st e
  | .ok lobby =>
  match findSlotByName lobby client.name with
  | none => errOutcome st .internal
  | some (_, _, player) =>
  match ensureIsLobbyHost lobby player with
  | .error e => errOutcome st e
  | .ok _ =>
  match ensureLobbyNotTransient st lobby with
  | .error e => errOutcome st e
  | .ok _ =>
  match findSlotById lobby slotId with
  | none => errOutcome st (.badRequest "invalid slot id")
  | some (_, _, playerToBan) =>
    if playerToBan.type ≠ .human then errOutcome st (.badRequest "invalid slot type")
    else
      let st1 := { st with
        lobbyBannedUsers :=
          aupdate st.lobbyBannedUsers lobby.name [] fun l => l ++ [playerToBan.name] }
      removeClientFromLobby env st1 lobby playerToBan.name .ban

end SB

namespace SB

/-! ## Countdown failure handling (lobbies.js 723-727) -/

/-- Embedding of the catch branch of `startCountdown` (lobbies.js
723-727): when the awaited countdown/load pair rejects, the handler runs
`_maybeCancelCountdown` then `_onLoadingCanceled` and swallows the
error, so the call itself completes without throwing. The state passed
in is the registry state at the moment of the failure (the countdown
record is already gone when the 5-second timer completed first, since
its `then` callback deletes it). -/
def startCountdownOnFailure (st : RegistryState) (lobby : Lobby) : Outcome :=
  let afterCancel := maybeCancelCountdown st lobby
  let afterLoading := onLoadingCanceled afterCancel.1 lobby
  { result := .ok (), state := afterLoading.1, pubs := afterCancel.2 ++ afterLoading.2 }

/-- Claim C6 (amended) — a failure inside the countdown/load handshake
is never propagated (the handler completes normally); afterwards the
lobby has neither a countdown record nor a loading entry; `cancelLoading`
and a list republish are always published; `cancelCountdown` is
published exactly when the countdown record was still present at failure
time (when the 5-second timer had already completed, the record is
already gone and no `cancelCountdown` is sent). -/
theorem c6_failure_rollback (st : RegistryState) (lobby : Lobby) :
    (startCountdownOnFailure st lobby).result = .ok () ∧
    lobby.name ∉ (startCountdownOnFailure st lobby).state.lobbyCountdowns ∧
    alookup (startCountdownOnFailure st lobby).state.loadingLobbies lobby.name = none ∧
    Msg.cancelLoading lobby.name ∈ (startCountdownOnFailure st lobby).pubs ∧
    Msg.listAdd lobby.name ∈ (startCountdownOnFailure st lobby).pubs ∧
    (Msg.cancelCountdown lobby.name ∈ (startCountdownOnFailure st lobby).pubs ↔
      lobby.name ∈ st.lobbyCountdowns) := by
  by_cases hc : lobby.name ∈ st.lobbyCountdowns
  · refine ⟨rfl, ?_, ?_, ?_, ?_, ?_⟩ <;>
      simp [startCountdownOnFailure, maybeCancelCountdown, onLoadingCanceled, hc,
        alookup_adelete_self]
  · refine ⟨rfl, ?_, ?_, ?_, ?_, ?_⟩ <;>
      simp [startCountdownOnFailure, maybeCancelCountdown, onLoadingCanceled, hc,
        alookup_adelete_self]

/-- Registry state for the C6 counterexample: the 5-second countdown
timer has completed (its `then` callback already deleted the countdown
record, lobbies.js 717) and the lobby is loading; then the loader
rejects. -/
def c6State : RegistryState :=
  { lobbies := [("L", witnessLobby)], lobbyClients := [(10, "L")], lobbyBannedUsers := [],
    lobbyCountdowns := [], loadingLobbies := [("L", 42)] }

/-- Claim C6 counterexample — a loader failure arriving after the
countdown timer completed is handled without any `cancelCountdown`
publish: the claim's unconditional "the countdown record is removed with
a cancelCountdown publish" fails at this reachable state (the loading
entry is still cleared and the handler still swallows the error). -/
theorem c6_counterexample :
    (startCountdownOnFailure c6State witnessLobby).result = .ok () ∧
    Msg.cancelCountdown "L" ∉ (startCountdownOnFailure c6State witnessLobby).pubs ∧
    alookup (startCountdownOnFailure c6State witnessLobby).state.loadingLobbies "L" = none :=
  ⟨rfl, by decide, by decide⟩

end SB

namespace SB

/-- Claim C6 witness: the rollback conclusions evaluated on the concrete
post-timer failure state. -/
theorem c6_failure_rollback_witness :
    Msg.cancelLoading "L" ∈ (startCountdownOnFailure c6State witnessLobby).pubs :=
  (c6_failure_rollback c6State witnessLobby).2.2.2.1

/-- The `Conflict` produced by `ensureLobbyNotTransient` on a transient
lobby: the countdown check runs first. -/
def transientConflict (st : RegistryState) (lobby : Lobby) : ApiError :=
  if lobby.name ∈ st.lobbyCountdowns then .conflict "lobby is counting down"
  else .conflict "lobby has already started"

theorem ensureLobbyNotTransient_error {st : RegistryState} {lobby : Lobby}
    (h : isTransient st lobby.name) :
    ensureLobbyNotTransient st lobby = .error (transientConflict st lobby) := by
  unfold isTransient at h
  rcases h with h | h
  · simp [ensureLobbyNotTransient, transientConflict, h]
  · by_cases hc : lobby.name ∈ st.lobbyCountdowns <;>
      simp [ensureLobbyNotTransient, transientConflict, hc, h]

theorem ensureLobbyNotTransient_ok {st : RegistryState} {lobby : Lobby}
    (h : ¬isTransient st lobby.name) :
    ensureLobbyNotTransient st lobby = .ok () := by
  unfold isTransient at h
  push_neg at h
  simp [ensureLobbyNotTransient, h.1, h.2]

/-- A successful `_removeClientFromLobby` run: with the user online, an
active client and a slot occupied under the user's name, the removal
completes without error, the countdown record of the lobby is gone
afterwards (cancelled with a `cancelCountdown` publish when one was
present), and a leaving user of a loading lobby receives
`cancelLoading`. -/
theorem removeClientFromLobby_ok {env : Env} {st : RegistryState} {lobby : Lobby}
    {userName : String} {rt : RemovalType} {client : Client} {ti si : Nat} {p : Slot}
    (hu : getUserByName env userName = .ok ())
    (hc : getActiveClientForUser env userName = .ok client)
    (hs : findSlotByName lobby userName = some (ti, si, p)) :
    (removeClientFromLobby env st lobby userName rt).result = .ok () ∧
    lobby.name ∉ (removeClientFromLobby env st lobby userName rt).state.lobbyCountdowns ∧
    (lobby.name ∈ st.lobbyCountdowns →
      Msg.cancelCountdown lobby.name ∈ (removeClientFromLobby env st lobby userName rt).pubs) ∧
    ((alookup st.loadingLobbies lobby.name).isSome = true →
      Msg.cancelLoadingUser lobby.name userName ∈
        (removeClientFromLobby env st lobby userName rt).pubs) := by
  unfold removeClientFromLobby
  rw [hu, hc, hs]
  by_cases hcd : lobby.name ∈ st.lobbyCountdowns <;>
    cases hrp : removePlayer lobby ti si p <;>
      simp [maybeCancelCountdown, hcd, hrp] <;> tauto

end SB

namespace SB

/-- Claim C1 (amended) — while a lobby is transient (countdown record or
loading entry), `kickPlayer` and `banPlayer` are rejected with the
transient `Conflict` before touching any state, exactly like the other
guarded mutations; `leave` is the only full-removal command accepted: it
applies the removal and then rolls the transient state back, cancelling
a pending countdown (with a `cancelCountdown` publish) and sending the
leaving user `cancelLoading` when the lobby was loading (the loading
table entry itself is cleared only by the asynchronous handshake failure
path). -/
theorem c1_transient_kick_ban_rejected_leave_accepted
    (env : Env) (st : RegistryState) (client : Client) (lobby : Lobby) (slotId : Nat)
    (userName : String) (ti si : Nat) (player : Slot)
    (hlobby : getLobbyForClient st client = .ok lobby)
    (hslot : findSlotByName lobby client.name = some (ti, si, player))
    (hhost : player.id = lobby.host.id)
    (htrans : isTransient st lobby.name) :
    kickPlayer env st client slotId = errOutcome st (transientConflict st lobby) ∧
    banPlayer env st client slotId = errOutcome st (transientConflict st lobby) ∧
    (∀ (client2 : Client) (ti2 si2 : Nat) (p2 : Slot),
      getUserByName env userName = .ok () →
      getActiveClientForUser env userName = .ok client2 →
      getLobbyForClient st client2 = .ok lobby →
      findSlotByName lobby userName = some (ti2, si2, p2) →
      (leave env st userName).result = .ok () ∧
      lobby.name ∉ (leave env st userName).state.lobbyCountdowns ∧
      (lobby.name ∈ st.lobbyCountdowns →
        Msg.cancelCountdown lobby.name ∈ (leave env st userName).pubs) ∧
      ((alookup st.loadingLobbies lobby.name).isSome = true →
        Msg.cancelLoadingUser lobby.name userName ∈ (leave env st userName).pubs)) := by
  have hhost' : ensureIsLobbyHost lobby player = .ok () := by
    simp [ensureIsLobbyHost, hhost]
  have htr := ensureLobbyNotTransient_error htrans
  refine ⟨?_, ?_, ?_⟩
  · simp [kickPlayer, hlobby, hslot, hhost', htr]
  · simp [banPlayer, hlobby, hslot, hhost', htr]
  · intro client2 ti2 si2 p2 hu hc hl hs
    have h := @removeClientFromLobby_ok env st lobby userName RemovalType.normal client2 ti2 si2 p2 hu hc hs
    simpa [leave, hc, hl] using h

/-- A second client (bob's connection) used in concrete registry
scenarios. -/
def bobClient : Client :=
  { id := 20, name := "bob", userId := 22 }

/-- Environment for the C1 scenario: alice and bob online, both with
active clients. -/
def c1Env : Env :=
  { onlineUsers := ["alice", "bob"],
    activeClients := [("alice", witnessClient), ("bob", bobClient)] }

/-- Registry state for the C1 scenario: the two-human lobby `W` is
counting down. -/
def c1State : RegistryState :=
  { lobbies := [("W", diffOldLobby)], lobbyClients := [(10, "W"), (20, "W")],
    lobbyBannedUsers := [], lobbyCountdowns := ["W"], loadingLobbies := [] }

/-- Claim C1 counterexample — with lobby `W` counting down, the host's
`kickPlayer` (and `banPlayer`) against bob's slot is rejected with
`Conflict` and leaves the registry untouched, where the claim asserts
kick and ban are accepted and roll the countdown back. -/
theorem c1_counterexample :
    (kickPlayer c1Env c1State witnessClient 2).result =
        .error (.conflict "lobby is counting down") ∧
    (kickPlayer c1Env c1State witnessClient 2).state = c1State ∧
    (banPlayer c1Env c1State witnessClient 2).result =
        .error (.conflict "lobby is counting down") ∧
    (banPlayer c1Env c1State witnessClient 2).state = c1State :=
  ⟨rfl, rfl, rfl, rfl⟩

/-- Claim C1 witness: the amended behaviour evaluated on the concrete
counting-down lobby — kick rejected, bob's leave accepted and the
countdown cancelled. -/
theorem c1_transient_witness :
    kickPlayer c1Env c1State witnessClient 2 =
        errOutcome c1State (transientConflict c1State diffOldLobby) ∧
    (leave c1Env c1State "bob").result = .ok () ∧
    Msg.cancelCountdown "W" ∈ (leave c1Env c1State "bob").pubs := by
  have h := c1_transient_kick_ban_rejected_leave_accepted c1Env c1State witnessClient
    diffOldLobby 2 "bob" 0 0 witnessSlot rfl rfl rfl (by decide)
  have hleave := h.2.2 bobClient 0 1 bobSlot rfl rfl rfl rfl
  exact ⟨h.1, hleave.1, hleave.2.2.1 (by decide)⟩

end SB

namespace SB

/-- Claim C2 (amended) — `banPlayer` does not fail without side effects:
the ban-list entry is committed before the removal step, so when the
removal fails because the target user is not online, the command throws
`BadRequest` yet the final registry state is exactly the initial state
with the target's name appended to the lobby's ban list; the lobby
table, client associations and transient tables are unchanged and
nothing is published. -/
theorem c2_ban_commits_before_failed_removal
    (env : Env) (st : RegistryState) (client : Client) (lobby : Lobby) (slotId : Nat)
    (ti si ti2 si2 : Nat) (player victim : Slot)
    (hlobby : getLobbyForClient st client = .ok lobby)
    (hslot : findSlotByName lobby client.name = some (ti, si, player))
    (hhost : player.id = lobby.host.id)
    (hntrans : ¬isTransient st lobby.name)
    (hfind : findSlotById lobby slotId = some (ti2, si2, victim))
    (hvict : victim.type = .human)
    (hoff : victim.name ∉ env.onlineUsers) :
    banPlayer env st client slotId =
      { result := .error (.badRequest "user not online"),
        state := { st with
          lobbyBannedUsers :=
            aupdate st.lobbyBannedUsers lobby.name [] fun l => l ++ [victim.name] },
        pubs := [] } := by
  have hhost' : ensureIsLobbyHost lobby player = .ok () := by
    simp [ensureIsLobbyHost, hhost]
  have htr := ensureLobbyNotTransient_ok hntrans
  have hu : getUserByName env victim.name = .error (.badRequest "user not online") := by
    simp [getUserByName, hoff]
  simp [banPlayer, hlobby, hslot, hhost', htr, hfind, hvict, removeClientFromLobby, hu,
    errOutcome]

/-- Environment for the C2 scenario: only alice is online; bob (still
occupying a slot) has disconnected. -/
def c2Env : Env :=
  { onlineUsers := ["alice"], activeClients := [("alice", witnessClient)] }

/-- Registry state for the C2 scenario: the two-human lobby `W`,
forming, with an empty ban list. -/
def c2State : RegistryState :=
  { lobbies := [("W", diffOldLobby)], lobbyClients := [(10, "W"), (20, "W")],
    lobbyBannedUsers := [], lobbyCountdowns := [], loadingLobbies := [] }

/-- Claim C2 counterexample — the host bans the disconnected bob: the
command throws `BadRequest` (at `getUserByName` inside
`_removeClientFromLobby`), yet the registry state is not the starting
state: the ban-list mutation from lobbies.js 534 is already committed. -/
theorem c2_counterexample :
    (banPlayer c2Env c2State witnessClient 2).result =
        .error (.badRequest "user not online") ∧
    (banPlayer c2Env c2State witnessClient 2).state ≠ c2State ∧
    (banPlayer c2Env c2State witnessClient 2).state.lobbyBannedUsers = [("W", ["bob"])] :=
  ⟨rfl, by decide, by decide⟩

/-- Claim C2 witness: the amended characterisation evaluated on the
concrete scenario — failed ban, ban list committed, everything else
untouched. -/
theorem c2_ban_commits_witness :
    banPlayer c2Env c2State witnessClient 2 =
      { result := .error (.badRequest "user not online"),
        state := { c2State with
          lobbyBannedUsers :=
            aupdate c2State.lobbyBannedUsers "W" [] fun l => l ++ ["bob"] },
        pubs := [] } :=
  c2_ban_commits_before_failed_removal c2Env c2State witnessClient diffOldLobby 2
    0 0 0 1 witnessSlot bobSlot rfl rfl rfl (by decide) rfl rfl (by decide)

end SB

namespace SB

theorem mem_slotsIndexedFrom {ti j a k : Nat} {x : Slot} {ss : List Slot}
    (h : (a, k, x) ∈ slotsIndexedFrom ti j ss) : a = ti ∧ k ≥ j ∧ x ∈ ss := by
  induction ss generalizing j with
  | nil => cases h
  | cons s rest ih =>
      rcases List.mem_cons.mp h with heq | hmem
      · obtain ⟨h1, h2, h3⟩ : a = ti ∧ k = j ∧ x = s := by simpa using heq
        exact ⟨h1, by omega, by simp [h3]⟩
      · obtain ⟨h1, h2, h3⟩ := ih hmem
        exact ⟨h1, by omega, by simp [h3]⟩

theorem mem_teamsIndexedFrom_ge {i a k : Nat} {x : Slot} {ts : List Team}
    (h : (a, k, x) ∈ teamsIndexedFrom i ts) : a ≥ i := by
  induction ts generalizing i with
  | nil => cases h
  | cons t rest ih =>
      rcases List.mem_append.mp h with h1 | h2
      · exact (mem_slotsIndexedFrom h1).1.ge
      · have := ih h2
        omega

theorem mem_teamsIndexedFrom_slot {i a k : Nat} {x : Slot} {ts : List Team}
    (h : (a, k, x) ∈ teamsIndexedFrom i ts) : x ∈ (ts.map Team.slots).flatten := by
  induction ts generalizing i with
  | nil => cases h
  | cons t rest ih =>
      rcases List.mem_append.mp h with h1 | h2
      · exact List.mem_append.mpr (Or.inl (mem_slotsIndexedFrom h1).2.2)
      · exact List.mem_append.mpr (Or.inr (ih h2))

theorem append_eq_singleton {α : Type} {l1 l2 : List α} {x : α} (h : l1 ++ l2 = [x]) :
    (l1 = [] ∧ l2 = [x]) ∨ (l1 = [x] ∧ l2 = []) := by
  cases l1 with
  | nil => exact Or.inl ⟨rfl, by simpa using h⟩
  | cons a as =>
      right
      have h' : a = x ∧ as ++ l2 = [] := by simpa using h
      have h2 : as = [] ∧ l2 = [] := List.append_eq_nil.mp h'.2
      simp [h'.1, h2.1, h2.2]

/-- Replacing the position of the only human slot of a slot list with a
non-human slot leaves no human slot. -/
theorem filter_replace_human_empty {tIdx j si : Nat} {p fresh : Slot} {ss : List Slot}
    (hmem : (tIdx, si, p) ∈ slotsIndexedFrom tIdx j ss)
    (hfresh : (fresh.type == SlotType.human) = false)
    (hfilter : ss.filter (fun s => s.type == SlotType.human) = [p]) :
    (replaceSlotInSlots ss (si - j) fresh).filter (fun s => s.type == SlotType.human) = [] := by
  induction ss generalizing j with
  | nil => cases hmem
  | cons s rest ih =>
      have hp_human : (p.type == SlotType.human) = true := by
        have hmemf : p ∈ (s :: rest).filter fun s => s.type == SlotType.human := by
          rw [hfilter]
          exact List.mem_singleton.mpr rfl
        exact (List.mem_filter.mp hmemf).2
      rcases List.mem_cons.mp hmem with heq | hmem'
      · obtain ⟨hsi, hps⟩ : si = j ∧ p = s := by simpa using heq
        have h0 : si - j = 0 := by omega
        rw [h0]
        have hrest : rest.filter (fun s => s.type == SlotType.human) = [] := by
          rw [List.filter_cons, ← hps, hp_human] at hfilter
          simpa using hfilter
        simp [replaceSlotInSlots, List.filter_cons, hfresh, hrest]
      · have hge := (mem_slotsIndexedFrom hmem').2.1
        have hpx := (mem_slotsIndexedFrom hmem').2.2
        have hsub : si - j = (si - (j + 1)) + 1 := by omega
        rw [hsub]
        by_cases hs : (s.type == SlotType.human) = true
        · exfalso
          rw [List.filter_cons, hs] at hfilter
          have h' : s = p ∧ rest.filter (fun s => s.type == SlotType.human) = [] := by
            simpa using hfilter
          have : p ∈ rest.filter fun s => s.type == SlotType.human :=
            List.mem_filter.mpr ⟨hpx, hp_human⟩
          rw [h'.2] at this
          cases this
        · rw [List.filter_cons, if_neg (by simpa using hs)] at hfilter
          have := ih hmem' hfilter
          simp only [replaceSlotInSlots, List.filter_cons]
          rw [if_neg (by simpa using hs)]
          exact this

/-- Replacing the position of the only human slot of a team list with a
non-human slot leaves no human slot anywhere. -/
theorem filter_replace_teams_empty {i ti si : Nat} {p fresh : Slot} {ts : List Team}
    (hmem : (ti, si, p) ∈ teamsIndexedFrom i ts)
    (hfresh : (fresh.type == SlotType.human) = false)
    (hfilter : ((ts.map Team.slots).flatten).filter (fun s => s.type == SlotType.human) = [p]) :
    (((replaceSlotInTeams ts (ti - i) si fresh).map Team.slots).flatten).filter
      (fun s => s.type == SlotType.human) = [] := by
  induction ts generalizing i with
  | nil => cases hmem
  | cons t rest ih =>
      have hp_human : (p.type == SlotType.human) = true := by
        have hmemf : p ∈ ((t :: rest).map Team.slots).flatten.filter
            fun s => s.type == SlotType.human := by
          rw [hfilter]
          exact List.mem_singleton.mpr rfl
        exact (List.mem_filter.mp hmemf).2
      rw [List.map_cons, List.flatten_cons, List.filter_append] at hfilter
      rcases List.mem_append.mp hmem with hmem1 | hmem2
      · have hti : ti = i := (mem_slotsIndexedFrom hmem1).1
        subst hti
        rw [Nat.sub_self]
        have hpt : p ∈ t.slots := (mem_slotsIndexedFrom hmem1).2.2
        have hpf : p ∈ t.slots.filter fun s => s.type == SlotType.human :=
          List.mem_filter.mpr ⟨hpt, hp_human⟩
        rcases append_eq_singleton hfilter with ⟨h1, _⟩ | ⟨h1, h2⟩
        · rw [h1] at hpf
          cases hpf
        · have hrepl := filter_replace_human_empty (j := 0) hmem1 hfresh h1
          rw [Nat.sub_zero] at hrepl
          simp only [replaceSlotInTeams, List.map_cons, List.flatten_cons, List.filter_append]
          rw [hrepl, h2]
          rfl
      · have hge := mem_teamsIndexedFrom_ge hmem2
        have hsub : ti - i = (ti - (i + 1)) + 1 := by omega
        rw [hsub]
        have hpx := mem_teamsIndexedFrom_slot hmem2
        have hpf : p ∈ ((rest.map Team.slots).flatten).filter
            fun s => s.type == SlotType.human :=
          List.mem_filter.mpr ⟨hpx, hp_human⟩
        rcases append_eq_singleton hfilter with ⟨h1, h2⟩ | ⟨_, h2⟩
        · have := ih hmem2 h2
          simp only [replaceSlotInTeams, List.map_cons, List.flatten_cons, List.filter_append]
          rw [h1, this]
          rfl
        · rw [h2] at hpf
          cases hpf

/-- The spec-modelled `removePlayer` returns the "lobby now empty"
sentinel when the removed occupant is the only human slot. -/
theorem removePlayer_eq_none {lobby : Lobby} {ti si : Nat} {player : Slot}
    (hmem : (ti, si, player) ∈ getLobbySlotsWithIndexes lobby)
    (hhuman : getHumanSlots lobby = [player]) :
    removePlayer lobby ti si player = none := by
  have hfresh : ((createOpenSlotWithId (freshSlotId lobby)).type == SlotType.human) = false :=
    rfl
  have h := filter_replace_teams_empty (i := 0) hmem hfresh
    (by simpa [getHumanSlots, getLobbySlots] using hhuman)
  rw [Nat.sub_zero] at h
  unfold removePlayer
  simp only [getHumanSlots, getLobbySlots] at h ⊢
  rw [h]

end SB

namespace SB

/-- Looking up after a delete: the deleted key is gone, others are
untouched. -/
theorem alookup_adelete {α β : Type} [DecidableEq α] (l : List (α × β)) (k key : α) :
    alookup (adelete l k) key = if key = k then none else alookup l key := by
  induction l with
  | nil => by_cases h : key = k <;> simp [adelete, alookup, h]
  | cons kv rest ih =>
      by_cases h1 : kv.1 = k
      · rw [show adelete (kv :: rest) k = adelete rest k by
          simp [adelete, List.filter_cons, h1]]
        rw [ih]
        by_cases h2 : key = k
        · simp [h2]
        · have hne : kv.1 ≠ key := by
            rw [h1]
            intro hh
            exact h2 hh.symm
          simp [alookup, h2, hne]
      · rw [show adelete (kv :: rest) k = kv :: adelete rest k by
          simp [adelete, List.filter_cons, h1]]
        by_cases h2 : kv.1 = key
        · have hkk : ¬key = k := by
            intro hh
            exact h1 (h2.symm ▸ hh ▸ rfl)
          simp [alookup, h2, hkk]
        · simp [alookup, h2, ih]

/-- Claim C5 — when the only human slot's occupant leaves, the lobby is
deleted from the lobby table (not retained), its ban list is discarded, a
`delete` lobby-list message is published, and every lobby still in the
registry afterwards was already there before, so no lobby with zero human
slots is ever retained. -/
theorem c5_last_human_leave_deletes_lobby
    (env : Env) (st : RegistryState) (userName : String) (client : Client) (lobby : Lobby)
    (ti si : Nat) (player : Slot)
    (hc : getActiveClientForUser env userName = .ok client)
    (hu : getUserByName env userName = .ok ())
    (hl : getLobbyForClient st client = .ok lobby)
    (hs : findSlotByName lobby userName = some (ti, si, player))
    (hhuman : getHumanSlots lobby = [player]) :
    (leave env st userName).result = .ok () ∧
    alookup (leave env st userName).state.lobbies lobby.name = none ∧
    alookup (leave env st userName).state.lobbyBannedUsers lobby.name = none ∧
    Msg.listDelete lobby.name ∈ (leave env st userName).pubs ∧
    (∀ (name : String) (lobby2 : Lobby),
      alookup (leave env st userName).state.lobbies name = some lobby2 →
      name ≠ lobby.name ∧ alookup st.lobbies name = some lobby2) ∧
    ((∀ (name : String) (lobby2 : Lobby),
        alookup st.lobbies name = some lobby2 → name ≠ lobby.name →
        getHumanSlots lobby2 ≠ []) →
      ∀ (name : String) (lobby2 : Lobby),
        alookup (leave env st userName).state.lobbies name = some lobby2 →
        getHumanSlots lobby2 ≠ []) := by
  have hmem := List.mem_of_find?_eq_some hs
  have hnone := removePlayer_eq_none hmem hhuman
  have hstate : (leave env st userName).state.lobbies = adelete st.lobbies lobby.name ∧
      (leave env st userName).state.lobbyBannedUsers = adelete st.lobbyBannedUsers lobby.name ∧
      (leave env st userName).result = .ok () ∧
      Msg.listDelete lobby.name ∈ (leave env st userName).pubs := by
    unfold leave
    simp only [hc, hl]
    unfold removeClientFromLobby
    simp only [hu, hc, hs]
    by_cases hcd : lobby.name ∈ st.lobbyCountdowns <;>
      simp [hnone, maybeCancelCountdown, hcd]
  have hsurv : ∀ (name : String) (lobby2 : Lobby),
      alookup (leave env st userName).state.lobbies name = some lobby2 →
      name ≠ lobby.name ∧ alookup st.lobbies name = some lobby2 := by
    intro name lobby2 hlk
    rw [hstate.1, alookup_adelete] at hlk
    by_cases hn : name = lobby.name
    · rw [if_pos hn] at hlk
      cases hlk
    · rw [if_neg hn] at hlk
      exact ⟨hn, hlk⟩
  refine ⟨hstate.2.2.1, ?_, ?_, hstate.2.2.2, hsurv, ?_⟩
  · rw [hstate.1]
    exact alookup_adelete_self _ _
  · rw [hstate.2.1]
    exact alookup_adelete_self _ _
  · intro hinv name lobby2 hlk
    obtain ⟨hne, hold⟩ := hsurv name lobby2 hlk
    exact hinv name lobby2 hold hne

/-- Environment for the C5 scenario: only alice, online and active. -/
def c5Env : Env :=
  { onlineUsers := ["alice"], activeClients := [("alice", witnessClient)] }

/-- Registry state for the C5 scenario: the one-human lobby `L` with a
non-empty ban list. -/
def c5State : RegistryState :=
  { lobbies := [("L", witnessLobby)], lobbyClients := [(10, "L")],
    lobbyBannedUsers := [("L", ["bob"])], lobbyCountdowns := [], loadingLobbies := [] }

/-- Claim C5 witness: alice, the only human, leaves lobby `L` — the
lobby and its ban list are gone and the `delete` list message is
published. -/
theorem c5_last_human_leave_witness :
    (leave c5Env c5State "alice").result = .ok () ∧
    alookup (leave c5Env c5State "alice").state.lobbies "L" = none ∧
    alookup (leave c5Env c5State "alice").state.lobbyBannedUsers "L" = none ∧
    Msg.listDelete "L" ∈ (leave c5Env c5State "alice").pubs := by
  have h := c5_last_human_leave_deletes_lobby c5Env c5State "alice" witnessClient
    witnessLobby 0 0 witnessSlot rfl rfl rfl rfl rfl
  exact ⟨h.1, h.2.1, h.2.2.1, h.2.2.2.1⟩

end SB

namespace SB

/-! ## Countdown / allowStart timing (lobbies.js 659-736)

The success path of `startCountdown` is modelled as a discrete-event
simulation over milliseconds. Three tasks exist: `timerFire` (the
5-second countdown timeout resolving the countdown deferred, lobbies.js
663), `allowStartFire` (the 2-second leeway timeout scheduled by the
deferred's `then` callback, lobbies.js 711-716) and `allDone` (the
continuation after `await Promise.all([countdownTimer, gameLoaded])`
resolves at the later of the timer and the external load, running
`_onGameLoaded` and then the `finally` block that clears a still-pending
`allowStart` timeout, lobbies.js 721-736). Tie-break at equal times:
the countdown deferred's `then` callback was registered before the
`Promise.all` continuation, so `timerFire` precedes `allDone`; a timeout
due exactly when the load completes is taken to fire first (the source
leaves this ordering to the platform). -/

/-- The countdown duration (lobbies.js 663). -/
def countdownTimerMs : Nat := 5000

/-- The post-countdown leeway before `allowStart` (lobbies.js 716). -/
def allowStartLeewayMs : Nat := 2000

/-- The three tasks of the handshake timeline. -/
inductive HsTask
  | timerFire
  | allDone
  | allowStartFire
deriving DecidableEq, Repr

/-- Same-instant ordering of tasks (see the section comment). -/
def taskPriority : HsTask → Nat
  | .timerFire => 0
  | .allowStartFire => 1
  | .allDone => 2

/-- Insert a timed task keeping the queue sorted by time then
priority. -/
def insertTask (e : Nat × HsTask) : List (Nat × HsTask) → List (Nat × HsTask)
  | [] => [e]
  | f :: rest =>
      if e.1 < f.1 ∨ (e.1 = f.1 ∧ taskPriority e.2 < taskPriority f.2) then e :: f :: rest
      else f :: insertTask e rest

/-- Simulation state: the pending task queue and the timed publishes so
far. -/
structure HsState where
  pending : List (Nat × HsTask)
  pubs : List (Nat × Msg)
deriving Repr

/-- One task execution: the timer schedules `allowStart` for 2 seconds
later; a still-pending `allowStart` publishes the broadcast with the
game id; the overall completion publishes `gameStarted` and clears any
pending `allowStart` timeout (the `finally` block's `clearTimeout`). -/
def hsStep (lobbyName : String) (gameId : Nat) (st : HsState) (e : Nat × HsTask) : HsState :=
  match e.2 with
  | .timerFire =>
      { st with pending := insertTask (e.1 + allowStartLeewayMs, .allowStartFire) st.pending }
  | .allowStartFire =>
      { st with pubs := st.pubs ++ [(e.1, Msg.allowStart lobbyName (some gameId))] }
  | .allDone =>
      { pending := st.pending.filter fun f => decide (f.2 ≠ HsTask.allowStartFire),
        pubs := st.pubs ++ [(e.1, Msg.gameStarted lobbyName)] }

/-- Run the queue to exhaustion. The fuel only needs to cover the task
count: at most three tasks ever exist (`timerFire` spawns the single
`allowStartFire`), so fuel 4 always drains the queue. -/
def hsRun (lobbyName : String) (gameId : Nat) : Nat → HsState → HsState
  | 0, st => st
  | fuel + 1, st =>
      match st.pending with
      | [] => st
      | e :: rest => hsRun lobbyName gameId fuel (hsStep lobbyName gameId { st with pending := rest } e)

/-- The timed publishes of a successful handshake whose external load
completes at `loadTime` (so `Promise.all` resolves at
`max countdownTimerMs loadTime`). -/
def successHandshakeTrace (lobbyName : String) (gameId : Nat) (loadTime : Nat) :
    List (Nat × Msg) :=
  (hsRun lobbyName gameId 4
    { pending := insertTask (countdownTimerMs, .timerFire)
        [(max countdownTimerMs loadTime, .allDone)],
      pubs := [] }).pubs

/-- Claim C7 (amended) — on a successful handshake the `allowStart`
broadcast (carrying the final game id) goes out exactly 2 seconds after
the countdown timer fires, but only when the external load completes no
earlier than that moment; when the load finishes sooner, the `finally`
block of `startCountdown` clears the still-pending timeout and no
`allowStart` is broadcast (only `gameStarted`), so the broadcast is not
unconditional. -/
theorem c7_allow_start_timing (lobbyName : String) (gameId loadTime : Nat) :
    (countdownTimerMs + allowStartLeewayMs ≤ max countdownTimerMs loadTime →
      successHandshakeTrace lobbyName gameId loadTime =
        [(countdownTimerMs + allowStartLeewayMs, Msg.allowStart lobbyName (some gameId)),
          (max countdownTimerMs loadTime, Msg.gameStarted lobbyName)]) ∧
    (max countdownTimerMs loadTime < countdownTimerMs + allowStartLeewayMs →
      successHandshakeTrace lobbyName gameId loadTime =
        [(max countdownTimerMs loadTime, Msg.gameStarted lobbyName)]) := by
  have h5 : countdownTimerMs ≤ max countdownTimerMs loadTime := le_max_left _ _
  have hins1 : insertTask (countdownTimerMs, HsTask.timerFire)
      [(max countdownTimerMs loadTime, HsTask.allDone)] =
      [(countdownTimerMs, HsTask.timerFire),
        (max countdownTimerMs loadTime, HsTask.allDone)] := by
    unfold insertTask
    rw [if_pos]
    rcases lt_or_eq_of_le h5 with hlt | heq
    · exact Or.inl hlt
    · exact Or.inr ⟨heq, by simp [taskPriority]⟩
  constructor
  · intro hle
    have hins2 : insertTask (countdownTimerMs + allowStartLeewayMs, HsTask.allowStartFire)
        [(max countdownTimerMs loadTime, HsTask.allDone)] =
        [(countdownTimerMs + allowStartLeewayMs, HsTask.allowStartFire),
          (max countdownTimerMs loadTime, HsTask.allDone)] := by
      unfold insertTask
      rw [if_pos]
      rcases lt_or_eq_of_le hle with hlt | heq
      · exact Or.inl hlt
      · exact Or.inr ⟨heq, by simp [taskPriority]⟩
    unfold successHandshakeTrace
    rw [hins1]
    simp [hsRun, hsStep, hins2]
  · intro hlt
    have hins2 : insertTask (countdownTimerMs + allowStartLeewayMs, HsTask.allowStartFire)
        [(max countdownTimerMs loadTime, HsTask.allDone)] =
        [(max countdownTimerMs loadTime, HsTask.allDone),
          (countdownTimerMs + allowStartLeewayMs, HsTask.allowStartFire)] := by
      unfold insertTask
      rw [if_neg]
      · rfl
      · push_neg
        refine ⟨by omega, fun heq => ?_⟩
        omega
    unfold successHandshakeTrace
    rw [hins1]
    simp [hsRun, hsStep, hins2]

/-- Claim C7 witness: load completing at 8 s (after the 7 s allowStart
moment) — the broadcast goes out at 7 s with the game id, then
`gameStarted` at 8 s. -/
theorem c7_allow_start_timing_witness :
    successHandshakeTrace "L" 42 8000 =
      [(countdownTimerMs + allowStartLeewayMs, Msg.allowStart "L" (some 42)),
        (max countdownTimerMs 8000, Msg.gameStarted "L")] :=
  (c7_allow_start_timing "L" 42 8000).1 (by decide)

/-- Claim C7 counterexample — a successful handshake whose load
completes at 6 s (between the countdown end and the allowStart moment):
`gameStarted` is published but `allowStart` never is, refuting "the
allowStart broadcast is never skipped on a successful handshake". -/
theorem c7_counterexample :
    (successHandshakeTrace "L" 42 6000).map Prod.snd = [Msg.gameStarted "L"] ∧
    Msg.allowStart "L" (some 42) ∉ (successHandshakeTrace "L" 42 6000).map Prod.snd := by
  constructor <;> decide

end SB
